import Mathlib

/-!
Verification development for the GitHub API access layer of the `ghd`
repository.  The Python source (`scraper/github.py`) is shallowly embedded:
pure helpers become Lean functions, the stateful credential pool and the
scheduler loop of `GitHubAPI.request` become an explicit state-passing step
function driven by fuel, and the network is modelled by an oracle mapping
each attempt (and requested page) to an HTTP outcome.
-/

namespace Ghd

/-! ## canonical_url (GitHubAPI.canonical_url)

Strings are handled as their character lists so all operations compute by
kernel reduction; the inputs in question are ASCII, for which the per-char
lowering below agrees with Python `str.lower`. -/

/-- ASCII lowering of one character, the effect of `str.lower` on the ASCII
repository references this function receives. -/
def lowerChar (c : Char) : Char :=
  if 65 ≤ c.toNat ∧ c.toNat ≤ 90 then Char.ofNat (c.toNat + 32) else c

/-- Embeds the Python loop `while url.endswith(".git"): url = url[:-4]`.
The fuel argument is instantiated with the string length, which bounds the
number of iterations since each one removes four characters. -/
def stripGitAux : Nat → List Char → List Char
  | 0, url => url
  | n + 1, url =>
    if ".git".data.isSuffixOf url then stripGitAux n (url.take (url.length - 4))
    else url

/-- Embedding of `GitHubAPI.canonical_url`: lower-case, strip each of the
chunks `httpp://`, `https://`, `github.com` once (in that order, each only
when the current string starts with it), strip one trailing slash, strip
trailing `.git` repeatedly, then prepend `github.com/`. -/
def canonical_url (project_url : String) : String :=
  let url := project_url.data.map lowerChar
  let url := if "httpp://".data.isPrefixOf url then url.drop 8 else url
  let url := if "https://".data.isPrefixOf url then url.drop 8 else url
  let url := if "github.com".data.isPrefixOf url then url.drop 10 else url
  let url := if "/".data.isSuffixOf url then url.take (url.length - 1) else url
  let url := stripGitAux url.length url
  String.mk ("github.com/".data ++ url)

/-! ## JSON values and the timeline normalizer (GitHubAPI.issue_pr_timeline) -/

/-- Dynamic JSON-like values, the payloads the Python code manipulates as
dicts, strings, numbers and lists.  `null` stands for Python `None`. -/
inductive J where
  | null
  | str (s : String)
  | num (n : Int)
  | bool (b : Bool)
  | arr (xs : List J)
  | obj (kvs : List (String × J))

/-- Dictionary lookup: `d.get(k)` / `d[k]` on the inputs exercised here
(missing key or non-dict yields `null`, matching `dict.get`; the branches
only index keys that are present on well-formed events). -/
def J.get : J → String → J
  | .obj kvs, k => (kvs.lookup k).getD .null
  | _, _ => .null

/-- Membership test `k in d.keys()`. -/
def J.hasKey : J → String → Bool
  | .obj kvs, k => (kvs.lookup k).isSome
  | _, _ => false

/-- The fixed output schema every timeline branch populates. -/
structure TRec where
  event : J
  author : J
  email : J
  author_type : J
  author_association : J
  commit_id : J
  created_at : J
  id : J
  repo : J
  type : J
  state : J
  assignees : J
  label : J
  body : J

/-- The catch-all `else` branch of `issue_pr_timeline`: tag and
`created_at` preserved, `type` the empty string, every other field blank. -/
def blankRec (e : J) : TRec :=
  { event := e.get "event"
    author := .str ""
    email := .str ""
    author_type := .str ""
    author_association := .str ""
    commit_id := .str ""
    created_at := e.get "created_at"
    id := .str ""
    repo := .str ""
    type := .str ""
    state := .str ""
    assignees := .str ""
    label := .str ""
    body := .str "" }

/-- Per-event normalization: the `if event['event'] == ...` dispatch chain
of `GitHubAPI.issue_pr_timeline`, one branch per known tag plus the
catch-all default. -/
def timelineMap (e : J) : TRec :=
  match e.get "event" with
  | .str s =>
    if s = "cross-referenced" then
      let author := e.get "actor"
      let issue := (e.get "source").get "issue"
      { event := .str s
        author := author.get "login"
        email := .str ""
        author_type := author.get "type"
        author_association := .str ""
        commit_id := .str ""
        created_at := e.get "created_at"
        id := issue.get "number"
        repo := (issue.get "repository").get "full_name"
        type := if issue.hasKey "pull_request" then .str "pull_request"
                else .str "issue"
        state := issue.get "state"
        assignees := issue.get "assignees"
        label := .str ""
        body := .str "" }
    else if s = "referenced" then
      let author := e.get "actor"
      { event := .str s
        author := author.get "login"
        email := .str ""
        author_type := author.get "type"
        author_association := .str ""
        commit_id := e.get "commit_id"
        created_at := e.get "created_at"
        id := .str ""
        repo := .str ""
        type := .str "commit"
        state := .str ""
        assignees := .str ""
        label := .str ""
        body := .str "" }
    else if s = "labeled" then
      let author := e.get "actor"
      { event := .str s
        author := author.get "login"
        email := .str ""
        author_type := author.get "type"
        author_association := .str ""
        commit_id := .str ""
        created_at := e.get "created_at"
        id := .str ""
        repo := .str ""
        type := .str "label"
        state := .str ""
        assignees := .str ""
        label := (e.get "label").get "name"
        body := .str "" }
    else if s = "committed" then
      { event := .str s
        author := (e.get "author").get "name"
        email := (e.get "author").get "email"
        author_type := .str ""
        author_association := .str ""
        commit_id := e.get "sha"
        created_at := e.get "created_at"
        id := .str ""
        repo := .str ""
        type := .str "commit"
        state := .str ""
        assignees := .str ""
        label := .str ""
        body := .str "" }
    else if s = "reviewed" then
      let author := e.get "user"
      { event := .str s
        author := author.get "login"
        email := .str ""
        author_type := author.get "type"
        author_association := e.get "author_association"
        commit_id := .str ""
        created_at := e.get "created_at"
        id := .str ""
        repo := .str ""
        type := .str "review"
        state := e.get "state"
        assignees := .str ""
        label := .str ""
        body := .str "" }
    else if s = "commented" then
      { event := .str s
        author := (e.get "user").get "login"
        email := .str ""
        author_type := (e.get "user").get "type"
        author_association := e.get "author_association"
        commit_id := .str ""
        created_at := e.get "created_at"
        id := .str ""
        repo := .str ""
        type := .str "comment"
        state := .str ""
        assignees := .str ""
        label := .str ""
        body := e.get "body" }
    else if s = "assigned" then
      let author := e.get "actor"
      { event := .str s
        author := author.get "login"
        email := .str ""
        author_type := author.get "type"
        author_association := .str ""
        commit_id := .str ""
        created_at := e.get "created_at"
        id := .str ""
        repo := .str ""
        type := .str "comment"
        state := .str ""
        assignees := .str ""
        label := .str ""
        body := .str "" }
    else if s = "closed" then
      let author := e.get "actor"
      { event := .str s
        author := author.get "login"
        email := .str ""
        author_type := author.get "type"
        author_association := .str ""
        commit_id := e.get "commit_id"
        created_at := e.get "created_at"
        id := .str ""
        repo := .str ""
        type := .str "close"
        state := .str ""
        assignees := .str ""
        label := .str ""
        body := .str "" }
    else if s = "subscribed" then
      let author := e.get "actor"
      { event := .str s
        author := author.get "login"
        email := .str ""
        author_type := author.get "type"
        author_association := .str ""
        commit_id := e.get "commit_id"
        created_at := e.get "created_at"
        id := e.get "commit_id"
        repo := .str ""
        type := .str "subscribed"
        state := .str ""
        assignees := .str ""
        label := .str ""
        body := .str "" }
    else if s = "merged" then
      let author := e.get "actor"
      { event := .str s
        author := author.get "login"
        email := .str ""
        author_type := author.get "type"
        author_association := .str ""
        commit_id := e.get "commit_id"
        created_at := e.get "created_at"
        id := e.get "commit_id"
        repo := .str ""
        type := .str "merged"
        state := .str ""
        assignees := .str ""
        label := .str ""
        body := .str "" }
    else blankRec e
  | _ => blankRec e

/-- `GitHubAPI.issue_pr_timeline` maps the event list element-wise; the
pagination and request plumbing is the scheduler model below. -/
def issue_pr_timeline (events : List J) : List TRec :=
  events.map timelineMap

/-! ## Credential quota model (GitHubAPIToken) -/

/-- The two rate-limit classes the client distinguishes. -/
inductive RateClass where
  | core
  | search
deriving DecidableEq

/-- One class's quota triple; `none` is Python `None` (never queried). -/
structure QuotaState where
  limit : Option Int
  remaining : Option Int
  reset_time : Option Int
deriving DecidableEq

/-- A credential's mutable state: the `self.limit` dict with its two keys. -/
structure TokenState where
  core : QuotaState
  search : QuotaState
deriving DecidableEq

def TokenState.get (ts : TokenState) : RateClass → QuotaState
  | .core => ts.core
  | .search => ts.search

def TokenState.set (ts : TokenState) : RateClass → QuotaState → TokenState
  | .core, q => { ts with core := q }
  | .search, q => { ts with search := q }

/-- A freshly constructed credential: both classes unqueried. -/
def freshToken : TokenState :=
  { core := ⟨none, none, none⟩, search := ⟨none, none, none⟩ }

/-- `GitHubAPIToken.api_class`: URLs starting with `search` use the search
bucket, everything else the core bucket. -/
def api_class (url : String) : RateClass :=
  if "search".data.isPrefixOf url.data then .search else .core

/-- `GitHubAPIToken.when`: `0` when the class's remaining quota is nonzero
or unknown, otherwise the recorded reset time (possibly `None`). -/
def when (ts : TokenState) (url : String) : Option Int :=
  let q := ts.get (api_class url)
  if q.remaining ≠ some 0 then some 0 else q.reset_time

/-- `GitHubAPIToken.ready`: `not t or t <= time.time()` on the result of
`when` (Python `not` treats both `None` and `0` as ready). -/
def ready (ts : TokenState) (url : String) (now : Int) : Bool :=
  match when ts url with
  | none => true
  | some t => t == 0 || decide (t ≤ now)

/-- Modelled from the spec wording of `ready` for comparison: true when the
class for the URL has nonzero remaining quota or its quota is unknown. -/
def spec_ready (ts : TokenState) (url : String) : Bool :=
  decide ((ts.get (api_class url)).remaining ≠ some 0)

/-- Whether the class's reset instant is unset, zero, or already passed:
the extra condition under which the code's `ready` accepts an exhausted
credential. -/
def reset_passed (ts : TokenState) (url : String) (now : Int) : Bool :=
  match (ts.get (api_class url)).reset_time with
  | none => true
  | some t => t == 0 || decide (t ≤ now)

/-! ## One HTTP attempt (GitHubAPIToken.request) -/

/-- The three rate-limit headers, when the response carries them. -/
structure RateHeaders where
  remaining : Int
  reset : Int
  limit : Int
deriving DecidableEq

/-- What the network does on one attempt: raise a connection error, raise a
timeout, or deliver a response with a status code, optional rate-limit
headers, a `Link: rel="next"` bit, and a JSON list body. -/
inductive HttpOutcome where
  | connError
  | timeout
  | resp (status : Nat) (rate : Option RateHeaders) (hasNext : Bool)
      (body : List Nat)
deriving DecidableEq

/-- Outcome of `GitHubAPIToken.request` as seen by the scheduler:
`notReady` is the `TokenNotReady` exception, the two error constructors are
the propagated `requests` exceptions, `ok` is a returned response. -/
inductive TokenResult where
  | notReady
  | connError
  | timeout
  | ok (status : Nat) (hasNext : Bool) (body : List Nat)
deriving DecidableEq

/-- `GitHubAPIToken.request`: refuse if not ready; otherwise perform the
call; if the response carries rate-limit headers, replace the URL's class
quota with exactly the header values, then raise `TokenNotReady` for a 403
with zero remaining or for a 443; otherwise hand the response back. -/
def tokenRequest (ts : TokenState) (url : String) (now : Int)
    (out : HttpOutcome) : TokenState × TokenResult :=
  if ¬ ready ts url now then (ts, .notReady)
  else
    match out with
    | .connError => (ts, .connError)
    | .timeout => (ts, .timeout)
    | .resp status rate hasNext body =>
      match rate with
      | some h =>
        let ts2 := ts.set (api_class url)
          { limit := some h.limit, remaining := some h.remaining,
            reset_time := some h.reset }
        if status = 403 ∧ h.remaining = 0 then (ts2, .notReady)
        else if status = 443 then (ts2, .notReady)
        else (ts2, .ok status hasNext body)
      | none => (ts, .ok status hasNext body)

/-- Writing one credential's new state back into the pool (the in-place
mutation of `self.tokens[i]`). -/
def poolUpdate (tokens : List TokenState) (i : Nat) (ts : TokenState) :
    List TokenState :=
  tokens.set i ts

/-! ## The scheduler loop (GitHubAPI.request) -/

/-- What the scheduler returns to its caller.  `emptyDict` is the literal
`return {}` for absent resources, `body` a non-paginated JSON body,
`pages` the accumulated `paginated_res` list, the `raised` constructors
are propagated exceptions and `pythonError` a Python-level `TypeError`
or `ValueError` in the `min(...)` epilogue. -/
inductive ExecResult where
  | emptyDict
  | body (xs : List Nat)
  | pages (xs : List Nat)
  | raisedTimeout
  | raisedStatus (status : Nat)
  | pythonError
deriving DecidableEq

/-- Observable steps of a run: an HTTP attempt on credential `tok` with the
current `page`/`per_page` params, a jittered transient-error sleep, and the
out-of-keys sleep until the earliest reset. -/
inductive Action where
  | attempt (tok : Nat) (page : Nat) (perPage : Nat)
  | jitterSleep (secs : Nat)
  | poolSleep (secs : Int)
deriving DecidableEq

/-- Prepend an action to the trace of a (possibly diverging) run. -/
def mapCons (a : Action) (r : Option (ExecResult × List Action)) :
    Option (ExecResult × List Action) :=
  r.map fun p => (p.1, a :: p.2)

/-- Python `min` over the pool's `when` values: defined on a non-empty list
of integers; an empty pool or a `None` entry is a Python error. -/
def minWhens : List (Option Int) → Option Int
  | [] => none
  | [x] => x
  | x :: xs =>
    match x, minWhens xs with
    | some a, some b => some (min a b)
    | _, _ => none

/-- The scheduler's loop state: the credential pool, the logical clock,
`timeout_counter`, the pagination params and accumulator, and how many
HTTP attempts have been made (used to index the network oracle). -/
structure SchedState where
  tokens : List TokenState
  now : Int
  timeoutCounter : Nat
  page : Nat
  perPage : Nat
  acc : List Nat
  attempts : Nat

/-- One credential-index step of `GitHubAPI.request`'s `while True`/`for
token` nest.  `i` is the position in the inner `for`; reaching the end of
the pool runs the out-of-keys epilogue and restarts the pass.  `server`
maps (attempt number, requested page) to the network's behaviour and `jit`
gives each attempt's `randint(1, 29)` draw.  Fuel only bounds the number of
steps of the otherwise potentially infinite loop; `none` means the run was
still going. -/
def go (pag : Bool) (url : String) (server : Nat → Nat → HttpOutcome)
    (jit : Nat → Nat) : Nat → SchedState → Nat →
    Option (ExecResult × List Action)
  | 0, _, _ => none
  | fuel + 1, st, i =>
    if i < st.tokens.length then
      let ts := st.tokens.getD i freshToken
      if ready ts url st.now then
        let act := Action.attempt i st.page st.perPage
        let pr := tokenRequest ts url st.now (server st.attempts st.page)
        let st1 := { st with tokens := poolUpdate st.tokens i pr.1,
                             attempts := st.attempts + 1 }
        match pr.2 with
        | .notReady => mapCons act (go pag url server jit fuel st1 (i + 1))
        | .connError => mapCons act (go pag url server jit fuel st1 (i + 1))
        | .timeout =>
          if st1.timeoutCounter + 1 > st1.tokens.length then
            some (.raisedTimeout, [act])
          else
            mapCons act (go pag url server jit fuel
              { st1 with timeoutCounter := st1.timeoutCounter + 1 } (i + 1))
        | .ok status hasNext body =>
          if status = 404 ∨ status = 451 then some (.emptyDict, [act])
          else if status = 409 then some (.emptyDict, [act])
          else if status = 410 then some (.emptyDict, [act])
          else if status = 403 then
            mapCons act (mapCons (.jitterSleep (jit st.attempts))
              (go pag url server jit fuel
                { st1 with now := st1.now + (jit st.attempts : Int) } (i + 1)))
          else if status = 443 then
            mapCons act (mapCons (.jitterSleep (jit st.attempts))
              (go pag url server jit fuel
                { st1 with now := st1.now + (jit st.attempts : Int) } (i + 1)))
          else if status = 502 then
            mapCons act (mapCons (.jitterSleep (jit st.attempts))
              (go pag url server jit fuel
                { st1 with now := st1.now + (jit st.attempts : Int) } (i + 1)))
          else if 400 ≤ status ∧ status < 600 then
            some (.raisedStatus status, [act])
          else if pag then
            let acc2 := st1.acc ++ body
            if body = [] ∨ hasNext = false then some (.pages acc2, [act])
            else
              mapCons act (go pag url server jit fuel
                { st1 with acc := acc2, page := st1.page + 1 } (i + 1))
          else some (.body body, [act])
      else go pag url server jit fuel st (i + 1)
    else
      match minWhens (st.tokens.map (fun t => when t url)) with
      | none => some (.pythonError, [])
      | some v =>
        let slp := v - st.now + 1
        if slp > 0 then
          mapCons (.poolSleep slp)
            (go pag url server jit fuel { st with now := st.now + slp } 0)
        else go pag url server jit fuel st 0

/-- `GitHubAPI.request` (the spec's `execute`): initialize the timeout
counter and, in paginated mode, `page = 1` and `per_page = 100`, then run
the loop. -/
def request (pag : Bool) (url : String) (server : Nat → Nat → HttpOutcome)
    (jit : Nat → Nat) (fuel : Nat) (tokens : List TokenState) (now : Int) :
    Option (ExecResult × List Action) :=
  go pag url server jit fuel
    { tokens := tokens, now := now, timeoutCounter := 0,
      page := if pag then 1 else 0, perPage := if pag then 100 else 0,
      acc := [], attempts := 0 } 0

/-! ## Concrete scenarios used by the theorems below -/

/-- Network giving three consecutive connection errors, then a success. -/
def connThenOkSrv : Nat → Nat → HttpOutcome := fun a _ =>
  if a < 3 then .connError else .resp 200 none false [7]

/-- Network that times out on every attempt. -/
def timeoutSrv : Nat → Nat → HttpOutcome := fun _ _ => .timeout

/-- Three connection errors, then two timeouts, then a success. -/
def mixedFailSrv : Nat → Nat → HttpOutcome := fun a _ =>
  if a < 3 then .connError
  else if a < 5 then .timeout
  else .resp 200 none false [7]

/-- First attempt: 403 with nonzero remaining quota; afterwards success. -/
def transient403Srv : Nat → Nat → HttpOutcome := fun a _ =>
  if a = 0 then .resp 403 (some ⟨5, 99, 100⟩) false [] else .resp 200 none false [9]

/-- A credential whose core quota is exhausted until reset instant `t`. -/
def exTok (t : Int) : TokenState :=
  { core := ⟨some 5000, some 0, some t⟩, search := ⟨none, none, none⟩ }

/-- Network that always succeeds with body `[3]`. -/
def okSrv : Nat → Nat → HttpOutcome := fun _ _ => .resp 200 none false [3]

/-- Paginated network: page 1 succeeds with `[1, 2]` and advertises a next
page; page 2 answers 404. -/
def abortPage2Srv : Nat → Nat → HttpOutcome := fun _ k =>
  if k = 1 then .resp 200 none true [1, 2] else .resp 404 none false []

/-- Paginated network: page 1 gives `[1, 2]` with a next page, page 2 gives
`[3]` without one. -/
def fullPagesSrv : Nat → Nat → HttpOutcome := fun _ k =>
  if k = 1 then .resp 200 none true [1, 2] else .resp 200 none false [3]

/-- Paginated network serving the bodies in `ps`: page `k` carries
`ps[k-1]` and advertises `rel="next"` exactly while further pages exist. -/
def pageSrv (ps : List (List Nat)) : Nat → Nat → HttpOutcome := fun _ k =>
  .resp 200 none (decide (k < ps.length)) (ps.getD (k - 1) [])

/-- Paginated network whose second page is empty (but still advertises a
next page). -/
def emptyPage2Srv : Nat → Nat → HttpOutcome := fun _ k =>
  .resp 200 none true (if k = 1 then [5] else [])

/-- A fixed jitter draw, standing in for `randint(1, 29)`. -/
def jitter7 : Nat → Nat := fun _ => 7

/-- The `committed` timeline event from the spec's example. -/
def committedEv : J :=
  .obj [("event", .str "committed"),
        ("author", .obj [("name", .str "A"), ("email", .str "a@x.com")]),
        ("sha", .str "abc")]

/-- A timeline event with an unrecognized tag and a `created_at`. -/
def unknownEv : J :=
  .obj [("event", .str "unknown_future_event"), ("created_at", .str "T")]

/-- The tags with dedicated branches in `issue_pr_timeline`. -/
def knownTags : List String :=
  ["cross-referenced", "referenced", "labeled", "committed", "reviewed",
   "commented", "assigned", "closed", "subscribed", "merged"]

/-- Expected normalization of `committedEv`: type `commit`, the commit
author name/email, the sha as `commit_id`, the tag preserved, `created_at`
absent (Python `None`), everything else the blank string. -/
def committedRec : TRec :=
  { event := .str "committed", author := .str "A", email := .str "a@x.com"
    author_type := .str "", author_association := .str ""
    commit_id := .str "abc", created_at := .null, id := .str ""
    repo := .str "", type := .str "commit", state := .str ""
    assignees := .str "", label := .str "", body := .str "" }

/-- Expected normalization of `unknownEv`: tag and `created_at` preserved,
`type` the empty string, every other field blank. -/
def unknownRec : TRec :=
  { event := .str "unknown_future_event", author := .str "", email := .str ""
    author_type := .str "", author_association := .str ""
    commit_id := .str "", created_at := .str "T", id := .str ""
    repo := .str "", type := .str "", state := .str ""
    assignees := .str "", label := .str "", body := .str "" }

/-! ## Helper lemmas -/

theorem TokenState.get_set_same (ts : TokenState) (c : RateClass) (q : QuotaState) :
    (ts.set c q).get c = q := by
  cases c <;> rfl

theorem TokenState.get_set_ne (ts : TokenState) (c c' : RateClass) (q : QuotaState)
    (h : c' ≠ c) : (ts.set c q).get c' = ts.get c' := by
  cases c <;> cases c' <;> first | rfl | exact absurd rfl h

theorem poolUpdate_getD_ne (tokens : List TokenState) (i j : Nat) (ts2 : TokenState)
    (hj : j ≠ i) :
    (poolUpdate tokens i ts2).getD j freshToken = tokens.getD j freshToken := by
  simp only [poolUpdate, List.getD_eq_getElem?_getD, List.getElem?_set_ne (Ne.symm hj)]

theorem ready_fresh : ready freshToken "r" 1 = true := by decide

theorem when_fresh : when freshToken "r" = some 0 := by decide

theorem minWhens_zero : minWhens [some 0] = some 0 := rfl

/-- A successful non-final page fetch in paginated mode: accumulate the
page body, bump the page counter, and move on within the pass. -/
theorem c4_pageStep (ps : List (List Nat)) (jit : Nat → Nat) (f k : Nat)
    (acc : List Nat) (a : Nat) (hk : 1 ≤ k) (hkN : k < ps.length)
    (hbne : ps[k - 1] ≠ []) :
    go true "r" (pageSrv ps) jit (f + 1) ⟨[freshToken], 1, 0, k, 100, acc, a⟩ 0
      = mapCons (.attempt 0 k 100)
          (go true "r" (pageSrv ps) jit f
            ⟨[freshToken], 1, 0, k + 1, 100, acc ++ ps[k - 1], a + 1⟩ 1) := by
  have hgd : ps.getD (k - 1) [] = ps[k - 1] := List.getD_eq_getElem ps [] (by omega)
  have hsome : ps[k - 1]? = some (ps[k - 1]) := List.getElem?_eq_getElem (by omega)
  simp [go, ready_fresh, tokenRequest, pageSrv, poolUpdate, hgd, hsome, hbne, hkN]

/-- Completing a pass over a single never-exhausted credential at logical
time 1 computes a non-positive sleep and restarts the pass directly. -/
theorem c4_passEnd (srv : Nat → Nat → HttpOutcome) (jit : Nat → Nat)
    (f tc k pp : Nat) (acc : List Nat) (a : Nat) :
    go true "r" srv jit (f + 1) ⟨[freshToken], 1, tc, k, pp, acc, a⟩ 1
      = go true "r" srv jit f ⟨[freshToken], 1, tc, k, pp, acc, a⟩ 0 := by
  simp [go, when_fresh, minWhens_zero]

/-- Invariant of the paginated loop: from page `k` with `m` further pages
available, the loop returns the accumulator extended with pages
`k .. ps.length`, attempting each page exactly once in order. -/
theorem c4_aux (ps : List (List Nat)) (hne : ∀ p ∈ ps, p ≠ []) :
    ∀ (m k : Nat) (acc : List Nat) (a : Nat) (jit : Nat → Nat),
    1 ≤ k → k + m = ps.length →
    go true "r" (pageSrv ps) jit (2 * m + 1)
        ⟨[freshToken], 1, 0, k, 100, acc, a⟩ 0
      = some (.pages (acc ++ (ps.drop (k - 1)).flatten),
          (List.range' k (m + 1)).map fun j => .attempt 0 j 100) := by
  intro m
  induction m with
  | zero =>
    intro k acc a jit hk hlen
    have hkN : k = ps.length := by omega
    subst hkN
    have hd : ps.drop (ps.length - 1) = [ps[ps.length - 1]] := by
      rw [List.drop_eq_getElem_cons (by omega)]
      congr 1
      exact List.drop_eq_nil_of_le (by omega)
    have hgd : ps.getD (ps.length - 1) [] = ps[ps.length - 1] :=
      List.getD_eq_getElem ps [] (by omega)
    have hsome : ps[ps.length - 1]? = some (ps[ps.length - 1]) :=
      List.getElem?_eq_getElem (by omega)
    simp [go, ready_fresh, tokenRequest, pageSrv, hd, hgd, hsome, List.range'_one]
  | succ m ih =>
    intro k acc a jit hk hlen
    obtain _ | j := k
    · exact absurd hk (by omega)
    have hkN : j + 1 < ps.length := by omega
    have hbne : ps[j + 1 - 1] ≠ [] := hne _ (List.getElem_mem (by omega))
    have hstep : 2 * (m + 1) + 1 = ((2 * m + 1) + 1) + 1 := by ring
    rw [hstep, c4_pageStep ps jit ((2 * m + 1) + 1) (j + 1) acc a hk hkN hbne,
      c4_passEnd, ih (j + 1 + 1) (acc ++ ps[j + 1 - 1]) (a + 1) jit (by omega) (by omega)]
    have hdrop : ps.drop (j + 1 - 1) = ps[j + 1 - 1] :: ps.drop (j + 1) := by
      simp only [Nat.add_sub_cancel]
      exact List.drop_eq_getElem_cons (by omega)
    simp [mapCons, hdrop, List.range'_succ]
    rw [List.drop_eq_getElem_cons (by omega : j < ps.length), List.flatten_cons]

/-! ## Claim theorems -/

/-- C1, counterexample.  The claim says that with a pool of 2 credentials,
3 consecutive connection errors raise the underlying error on the 3rd
attempt.  In the code connection errors are skipped without touching the
(timeout-only) failure counter: after 3 consecutive connection errors the
4th attempt succeeds and its body is returned — nothing is ever raised. -/
theorem c1_connection_errors_counterexample :
    request false "r" connThenOkSrv jitter7 12 [freshToken, freshToken] 1
      = some (.body [7],
          [.attempt 0 0 0, .attempt 1 0 0, .attempt 0 0 0, .attempt 1 0 0]) := by
  decide

/-- C1, amended.  The failure counter covers only timeouts, bounded by the
pool size: with a pool of 2, the 3rd consecutive timeout re-raises, while
connection errors are skipped without incrementing the counter, so 3
connection errors followed by 2 timeouts followed by a success still
return the success without raising. -/
theorem c1_timeout_counter_amended :
    request false "r" timeoutSrv jitter7 12 [freshToken, freshToken] 1
      = some (.raisedTimeout, [.attempt 0 0 0, .attempt 1 0 0, .attempt 0 0 0])
    ∧ request false "r" mixedFailSrv jitter7 15 [freshToken, freshToken] 1
      = some (.body [7],
          [.attempt 0 0 0, .attempt 1 0 0, .attempt 0 0 0, .attempt 1 0 0,
           .attempt 0 0 0, .attempt 1 0 0]) := by
  exact ⟨by decide, by decide⟩

/-- C2, counterexample.  The claim says a 403 with nonzero remaining quota
is retried on the same credential without advancing.  In the run below,
credential 0 receives the 403, the scheduler sleeps the jitter, and the
next attempt is made on credential 1 — the pool position advances. -/
theorem c2_same_credential_counterexample :
    request false "r" transient403Srv jitter7 12 [freshToken, freshToken] 1
      = some (.body [9], [.attempt 0 0 0, .jitterSleep 7, .attempt 1 0 0])
    ∧ Action.attempt 1 0 0 ≠ Action.attempt 0 0 0 := by
  exact ⟨by decide, by decide⟩

/-- C2, amended.  For a 403 response with nonzero remaining quota (or
without rate-limit headers), a headerless 443, or a 502, the scheduler
sleeps the random 1-29s jitter and then continues with the NEXT credential
in pool order, rather than retrying the same one.  (A 443 carrying
rate-limit headers and a 403 with zero remaining instead raise
`TokenNotReady` inside the credential and rotate without sleeping.) -/
theorem c2_jitter_advance_amended (pag : Bool) (url : String)
    (server : Nat → Nat → HttpOutcome) (jit : Nat → Nat) (fuel : Nat)
    (st : SchedState) (i : Nat) (s : Nat) (rate : Option RateHeaders)
    (hn : Bool) (body : List Nat)
    (hi : i < st.tokens.length)
    (hready : ready (st.tokens[i]) url st.now = true)
    (hsrv : server st.attempts st.page = .resp s rate hn body)
    (hs : (s = 403 ∧ ∀ h, rate = some h → h.remaining ≠ 0)
        ∨ (s = 443 ∧ rate = none) ∨ s = 502) :
    go pag url server jit (fuel + 1) st i
      = mapCons (.attempt i st.page st.perPage)
          (mapCons (.jitterSleep (jit st.attempts))
            (go pag url server jit fuel
              { st with
                tokens := poolUpdate st.tokens i
                  (tokenRequest (st.tokens[i]) url st.now
                    (server st.attempts st.page)).1,
                attempts := st.attempts + 1,
                now := st.now + (jit st.attempts : Int) } (i + 1))) := by
  rcases hs with ⟨rfl, hrem⟩ | ⟨rfl, rfl⟩ | rfl
  · rcases rate with _ | h
    · simp [go, hi, hready, hsrv, tokenRequest]
    · have hr0 := hrem h rfl
      simp [go, hi, hready, hsrv, tokenRequest, hr0]
  · simp [go, hi, hready, hsrv, tokenRequest]
  · rcases rate with _ | h <;> simp [go, hi, hready, hsrv, tokenRequest]

/-- C2, amended, witness: the general step theorem applied to the concrete
403 run, evaluated. -/
theorem c2_jitter_advance_witness :
    go false "r" transient403Srv jitter7 3 ⟨[freshToken, freshToken], 1, 0, 0, 0, [], 0⟩ 0
      = some (.body [9], [.attempt 0 0 0, .jitterSleep 7, .attempt 1 0 0]) := by
  exact (c2_jitter_advance_amended false "r" transient403Srv jitter7 2
    ⟨[freshToken, freshToken], 1, 0, 0, 0, [], 0⟩ 0 403 (some ⟨5, 99, 100⟩) false []
    (by decide) (by decide) (by decide)
    (Or.inl ⟨rfl, fun h hh => by cases hh; decide⟩)).trans (by decide)

/-- C3.  Whenever a ready credential's attempt comes back with status 404,
451, 409 or 410, the scheduler immediately returns the empty dict after
that single attempt — no exception constructor is produced. -/
theorem c3_resource_absent_empty (pag : Bool) (url : String)
    (server : Nat → Nat → HttpOutcome) (jit : Nat → Nat) (fuel : Nat)
    (st : SchedState) (i : Nat) (s : Nat) (rate : Option RateHeaders)
    (hn : Bool) (body : List Nat)
    (hi : i < st.tokens.length)
    (hready : ready (st.tokens[i]) url st.now = true)
    (hsrv : server st.attempts st.page = .resp s rate hn body)
    (hs : s = 404 ∨ s = 451 ∨ s = 409 ∨ s = 410) :
    go pag url server jit (fuel + 1) st i
      = some (.emptyDict, [.attempt i st.page st.perPage]) := by
  rcases hs with rfl | rfl | rfl | rfl <;> rcases rate with _ | h <;>
    simp [go, hi, hready, hsrv, tokenRequest]

/-- C3, witness: a concrete 404 run returning the empty dict. -/
theorem c3_resource_absent_witness :
    (0 : Nat) < ([freshToken] : List TokenState).length
    ∧ ready (([freshToken] : List TokenState)[0]) "r" 1 = true
    ∧ abortPage2Srv 0 2 = .resp 404 none false []
    ∧ go false "r" abortPage2Srv jitter7 4
        ⟨[freshToken], 1, 0, 2, 0, [], 0⟩ 0 = some (.emptyDict, [.attempt 0 2 0]) := by
  refine ⟨by decide, by decide, by decide, ?_⟩
  exact c3_resource_absent_empty false "r" abortPage2Srv jitter7 3
    ⟨[freshToken], 1, 0, 2, 0, [], 0⟩ 0 404 none false []
    (by decide) (by decide) (by decide) (Or.inl rfl)

/-- C4.  First conjunct: a paginated request over the non-empty pages of
`ps`, the last of which lacks `rel="next"`, returns exactly the
concatenation of those pages in order, having requested pages
`1, 2, ..., N` each once with `per_page = 100`.  Second conjunct: an empty
page also stops pagination, returning what was accumulated before it. -/
theorem c4_pagination_concat (ps : List (List Nat)) (jit : Nat → Nat)
    (hne : ∀ p ∈ ps, p ≠ []) (hps : ps ≠ []) :
    request true "r" (pageSrv ps) jit (2 * ps.length - 1) [freshToken] 1
      = some (.pages ps.flatten,
          (List.range' 1 ps.length).map fun j => .attempt 0 j 100)
    ∧ request true "r" emptyPage2Srv jitter7 12 [freshToken] 1
      = some (.pages [5], [.attempt 0 1 100, .attempt 0 2 100]) := by
  constructor
  · have hlen : 1 ≤ ps.length := List.length_pos.mpr hps
    have h := c4_aux ps hne (ps.length - 1) 1 [] 0 jit le_rfl (by omega)
    rw [show 2 * (ps.length - 1) + 1 = 2 * ps.length - 1 by omega,
      show ps.length - 1 + 1 = ps.length by omega] at h
    simp only [List.drop_zero, List.nil_append, Nat.sub_self] at h
    simp only [request, if_true]
    exact h
  · decide

/-- C4, witness: three concrete non-empty pages concatenate in order. -/
theorem c4_pagination_witness :
    request true "r" (pageSrv [[1, 2], [3], [4, 5, 6]]) jitter7 5 [freshToken] 1
      = some (.pages [1, 2, 3, 4, 5, 6],
          [.attempt 0 1 100, .attempt 0 2 100, .attempt 0 3 100]) := by
  exact ((c4_pagination_concat [[1, 2], [3], [4, 5, 6]] jitter7
    (by decide) (by decide)).1).trans (by decide)

/-- C5.  After a real call whose response carries rate-limit headers, the
credential's quota for the URL's class equals exactly the header triple,
whatever the status code; the other class's quota is untouched; and
writing the credential back into the pool leaves every other credential's
state unchanged. -/
theorem c5_quota_exact_update (ts : TokenState) (url : String) (now : Int)
    (status : Nat) (h : RateHeaders) (hasNext : Bool) (body : List Nat)
    (hr : ready ts url now = true) :
    ((tokenRequest ts url now (.resp status (some h) hasNext body)).1.get (api_class url)
        = ⟨some h.limit, some h.remaining, some h.reset⟩)
    ∧ (∀ c : RateClass, c ≠ api_class url →
        (tokenRequest ts url now (.resp status (some h) hasNext body)).1.get c
          = ts.get c)
    ∧ (∀ (tokens : List TokenState) (i j : Nat) (ts2 : TokenState), j ≠ i →
        (poolUpdate tokens i ts2).getD j freshToken = tokens.getD j freshToken) := by
  have hfst : (tokenRequest ts url now (.resp status (some h) hasNext body)).1
      = ts.set (api_class url) ⟨some h.limit, some h.remaining, some h.reset⟩ := by
    simp only [tokenRequest, hr]
    norm_num
    split
    · rfl
    · split <;> rfl
  refine ⟨?_, ?_, ?_⟩
  · rw [hfst, TokenState.get_set_same]
  · intro c hc
    rw [hfst, TokenState.get_set_ne _ _ _ _ hc]
  · intro tokens i j ts2 hj
    exact poolUpdate_getD_ne tokens i j ts2 hj

/-- C5, witness: a 500 response with headers `remaining=1, reset=2,
limit=3` still replaces the core quota exactly, leaves the search quota
unqueried, and pool write-back leaves credential 1 alone. -/
theorem c5_quota_exact_witness :
    (tokenRequest freshToken "r" 0 (.resp 500 (some ⟨1, 2, 3⟩) false [])).1.get (api_class "r")
      = ⟨some 3, some 1, some 2⟩
    ∧ (tokenRequest freshToken "r" 0 (.resp 500 (some ⟨1, 2, 3⟩) false [])).1.get .search
      = freshToken.get .search
    ∧ (poolUpdate [freshToken, exTok 9] 0 (exTok 4)).getD 1 freshToken
      = [freshToken, exTok 9].getD 1 freshToken := by
  have h := c5_quota_exact_update freshToken "r" 0 500 ⟨1, 2, 3⟩ false [] (by decide)
  exact ⟨h.1, h.2.1 .search (by decide), h.2.2 [freshToken, exTok 9] 0 1 (exTok 4) (by decide)⟩

/-- C6.  `canonical_url` handles the bare `pandas-DEV/pandas` reference as
documented, but on `https://github.com/django/django.git` it returns
`github.com//django/django` with a doubled slash (stripping the
`github.com` chunk leaves the following `/` in place), contradicting the
function's own doctest, which expects `github.com/django/django`; the
doctest input `https://github.com/A/B/` likewise yields `github.com//a/b`
instead of the documented `github.com/a/b/`. -/
theorem c6_canonical_url_bug :
    canonical_url "pandas-DEV/pandas" = "github.com/pandas-dev/pandas"
    ∧ canonical_url "https://github.com/django/django.git" = "github.com//django/django"
    ∧ canonical_url "https://github.com/A/B/" = "github.com//a/b" := by
  refine ⟨by decide, by decide, by decide⟩

/-- C7, counterexample.  With three credentials exhausted at resets
10, 20, 30 and the clock at 5, the claim says the computed wait equals
`min - now = 5`; the code sleeps `int(min - now) + 1 = 6`. -/
theorem c7_wait_counterexample :
    request false "r" okSrv jitter7 12 [exTok 10, exTok 20, exTok 30] 5
      = some (.body [3], [.poolSleep 6, .attempt 0 0 0])
    ∧ (6 : Int) ≠ 10 - 5 := by
  exact ⟨by decide, by decide⟩

/-- C7, amended.  When a pass ends, the scheduler sleeps
`min(when) - now + 1` (when positive) — one second more than the claim's
`min - now` — after which the clock stands at `min + 1`, so the next
attempt indeed occurs no earlier than the minimum reset instant. -/
theorem c7_wait_amended (pag : Bool) (url : String)
    (server : Nat → Nat → HttpOutcome) (jit : Nat → Nat) (fuel : Nat)
    (st : SchedState) (i : Nat) (v : Int)
    (hi : st.tokens.length ≤ i)
    (hmin : minWhens (st.tokens.map fun t => when t url) = some v)
    (hpos : 0 < v - st.now + 1) :
    go pag url server jit (fuel + 1) st i
      = mapCons (.poolSleep (v - st.now + 1))
          (go pag url server jit fuel
            { st with now := st.now + (v - st.now + 1) } 0)
    ∧ st.now + (v - st.now + 1) = v + 1 := by
  constructor
  · have hnot : ¬ i < st.tokens.length := by omega
    simp [go, hnot, hmin, hpos]
  · omega

/-- C7, amended, witness: one exhausted credential with reset 10 at time
5 sleeps 6 seconds and resumes at 11. -/
theorem c7_wait_witness :
    ([exTok 10] : List TokenState).length ≤ 1
    ∧ minWhens ([exTok 10].map fun t => when t "r") = some 10
    ∧ (0 : Int) < 10 - 5 + 1
    ∧ go false "r" okSrv jitter7 3 ⟨[exTok 10], 5, 0, 0, 0, [], 0⟩ 1
        = mapCons (.poolSleep 6)
            (go false "r" okSrv jitter7 2 ⟨[exTok 10], 11, 0, 0, 0, [], 0⟩ 0)
    ∧ (5 : Int) + 6 = 11 := by
  have h := c7_wait_amended false "r" okSrv jitter7 2 ⟨[exTok 10], 5, 0, 0, 0, [], 0⟩ 1 10
    (by decide) (by decide) (by decide)
  refine ⟨by decide, by decide, by decide, ?_, by decide⟩
  exact h.1

/-- C8, counterexample.  A credential with `remaining = 0` and a reset
instant already in the past is `ready` in the code, though the claim's
condition (nonzero or unknown remaining quota) is false. -/
theorem c8_ready_counterexample :
    ready (exTok 5) "r" 10 = true ∧ spec_ready (exTok 5) "r" = false := by
  exact ⟨by decide, by decide⟩

/-- C8, amended.  `ready(url)` is true exactly when the URL's class has
nonzero (or unknown) remaining quota, or its recorded reset instant is
unset, zero, or not later than the current time. -/
theorem c8_ready_amended (ts : TokenState) (url : String) (now : Int) :
    ready ts url now = (spec_ready ts url || reset_passed ts url now) := by
  unfold ready when spec_ready reset_passed
  by_cases h : (ts.get (api_class url)).remaining = some 0
  · simp [h]
  · simp [h]

/-- C9.  `issue_pr_timeline` is an element-wise map with no cross-event
memory; an event tagged outside the known tags normalizes to the blank
record with tag and `created_at` preserved; the spec's `committed` example
and unknown-tag example produce exactly the expected records. -/
theorem c9_timeline_normalization :
    (∀ (es : List J) (e : J),
      issue_pr_timeline (es ++ [e]) = issue_pr_timeline es ++ [timelineMap e])
    ∧ (∀ (e : J) (s : String), e.get "event" = .str s → s ∉ knownTags →
        timelineMap e = blankRec e)
    ∧ issue_pr_timeline [committedEv] = [committedRec]
    ∧ issue_pr_timeline [unknownEv] = [unknownRec] := by
  refine ⟨fun es e => by simp [issue_pr_timeline], fun e s hs hmem => ?_, rfl, rfl⟩
  simp only [knownTags, List.mem_cons, List.not_mem_nil, or_false, not_or] at hmem
  obtain ⟨h1, h2, h3, h4, h5, h6, h7, h8, h9, h10⟩ := hmem
  unfold timelineMap
  rw [hs]
  simp only [h1, h2, h3, h4, h5, h6, h7, h8, h9, h10, if_false]

/-- C9, witness: appending the unknown-tag event to a stream maps it
independently, and its tag is indeed outside the known set. -/
theorem c9_timeline_witness :
    issue_pr_timeline ([committedEv] ++ [unknownEv])
      = issue_pr_timeline [committedEv] ++ [timelineMap unknownEv]
    ∧ timelineMap unknownEv = blankRec unknownEv := by
  exact ⟨c9_timeline_normalization.1 [committedEv] unknownEv,
    c9_timeline_normalization.2.1 unknownEv "unknown_future_event" rfl (by decide)⟩

/-- C10.  A paginated call whose first page succeeds with records `[1, 2]`
and whose second page answers 404 returns the empty dict, discarding the
accumulated records; the same call with a successful second page returns
the list of all records — and the empty dict is a different value from
any (even partial) page list. -/
theorem c10_paginated_abort :
    request true "r" abortPage2Srv jitter7 12 [freshToken] 1
      = some (.emptyDict, [.attempt 0 1 100, .attempt 0 2 100])
    ∧ request true "r" fullPagesSrv jitter7 12 [freshToken] 1
      = some (.pages [1, 2, 3], [.attempt 0 1 100, .attempt 0 2 100])
    ∧ ExecResult.emptyDict ≠ .pages [1, 2] := by
  exact ⟨by decide, by decide, by decide⟩

end Ghd
